import Mathlib

/-!
Shallow embedding of `deploy/api/utils/music_embedding_client.py` from the
AI-beat-maker repository, together with proofs about it.

Modelling conventions:
* audio samples and tensor values are exact rationals (`ℚ`), standing for the
  source's floating-point values in exact arithmetic;
* the external mel-spectrogram transform (`torchaudio.transforms.MelSpectrogram`)
  and the external natural-logarithm primitive (`torch.Tensor.log`) are opaque
  collaborators, passed in as function parameters `mel` and `logFn`;
* the Triton gRPC network is an opaque collaborator `net`, mapping a server url
  and a request to either an error message (a raised client exception) or a
  response, modelled as an association list from tensor names to tensors;
* fallible steps return `Option` / `Except` instead of raising exceptions.
-/

set_option autoImplicit false

universe u v

/-- One log-mel-spectrogram feature tensor for one segment: a list of rows
(time frames), each a list of mel-bin values. -/
abbrev Feature := List (List ℚ)

/-- The result of decoding one audio file with `torchaudio.load`, already
squeezed to a mono 1-D waveform: the sample values and the reported sample
rate. -/
structure AudioInput where
  samples : List ℚ
  sample_rate : Nat

/-- Module-level constant `EXTRACT_EMB_CHUNK_SIZE = 1024`. -/
def EXTRACT_EMB_CHUNK_SIZE : Nat := 1024

/-- Module-level constant `SAMPLE_RATE = 8000`. -/
def SAMPLE_RATE : Nat := 8000

/-- Module-level constant `SEGMENT_SIZE = 1.0` (seconds). -/
def SEGMENT_SIZE : ℚ := 1

/-- Module-level constant `HOP_SIZE = 0.5` (seconds). -/
def HOP_SIZE : ℚ := 1 / 2

/-- The state of a `MusicEmbeddingClient` instance after `__init__`: the server
url and the derived configuration fields.  (The `transformation` field is the
external mel transform, passed separately as the parameter `mel`.) -/
structure MusicEmbeddingClient where
  url : String
  segment_size : Nat
  hop_size : Nat
  model_name : String

/-- `MusicEmbeddingClient.__init__`: `segment_size = int(SEGMENT_SIZE * SAMPLE_RATE)`,
`hop_size = int(HOP_SIZE * SAMPLE_RATE)`, `model_name = "neuralfp"`.  Python's
`int()` truncation on these non-negative values is the floor. -/
def MusicEmbeddingClient.init (url : String) : MusicEmbeddingClient :=
  { url := url
    segment_size := (SEGMENT_SIZE * (SAMPLE_RATE : ℚ)).floor.toNat
    hop_size := (HOP_SIZE * (SAMPLE_RATE : ℚ)).floor.toNat
    model_name := "neuralfp" }

/-- `torch.Tensor.unfold(0, size, step)` on a 1-D tensor: all windows of length
`size` taken every `step` positions.  Torch raises a runtime error when
`step <= 0` or when `size` exceeds the tensor length; that is the `none` case.
Otherwise row `i` (for `i < (L - size) / step + 1`) is `xs[i*step : i*step + size]`. -/
def unfold {α : Type u} (xs : List α) (size step : Nat) : Option (List (List α)) :=
  if 0 < step ∧ size ≤ xs.length then
    some ((List.range ((xs.length - size) / step + 1)).map
      (fun i => (xs.drop (i * step)).take size))
  else
    none

/-- Mean of a list of rationals (`torch.Tensor.mean` along a row). -/
def mean (xs : List ℚ) : ℚ := xs.sum / (xs.length : ℚ)

/-- One row of `segments - segments.mean(dim=1).unsqueeze(1)`: each segment has
its own mean subtracted from each of its samples. -/
def removeDC (xs : List ℚ) : List ℚ := xs.map (fun v => v - mean xs)

/-- `torch.Tensor.clamp(1e-5)` on one value: clamp below at `1e-5 = 1/100000`. -/
def clamp_min (x : ℚ) : ℚ := max x (1 / 100000)

/-- `features.clamp(1e-5).log()` on one feature tensor, elementwise, with the
external logarithm primitive `logFn`. -/
def applyLog (logFn : ℚ → ℚ) (f : Feature) : Feature :=
  f.map (List.map (fun v => logFn (clamp_min v)))

/-- `MusicEmbeddingClient.prepare_feature`: decode result `file` stands for
`torchaudio.load(file)` already squeezed; segments are `unfold(0, segment_size,
hop_size)`; each segment has its own mean removed; the external transform `mel`
maps the batch of segments to a batch of feature tensors; values are clamped at
`1e-5` and passed through the log primitive.  Returns `(features, sr)`; `none`
models the runtime error torch raises when the waveform is shorter than
`segment_size`. -/
def MusicEmbeddingClient.prepare_feature (c : MusicEmbeddingClient)
    (mel : List (List ℚ) → List Feature) (logFn : ℚ → ℚ) (file : AudioInput) :
    Option (List Feature × Nat) :=
  match unfold file.samples c.segment_size c.hop_size with
  | none => none
  | some segments =>
      some ((mel (segments.map removeDC)).map (applyLog logFn), file.sample_rate)

/-- Modelled from the spec: `split_to_equal_chunk` is imported from
`deploy/api/utils/common.py`, which is not among the provided sources.  The
spec's contract: split an ordered sequence into ordered chunks of at most
`chunk_size` elements, chunk `i` containing elements
`[i*chunk_size, min((i+1)*chunk_size, N))`, zero chunks for an empty input.
(The `chunk_size = 0` case never arises; it is mapped to zero chunks.) -/
def split_to_equal_chunk {α : Type u} : List α → Nat → List (List α)
  | [], _ => []
  | _ :: _, 0 => []
  | x :: xs, n + 1 =>
      ((x :: xs).take (n + 1)) :: split_to_equal_chunk (xs.drop n) (n + 1)
termination_by l _ => l.length
decreasing_by
  simp only [List.length_drop, List.length_cons]
  omega

/-- One `grpcclient.InferInput` after `set_data_from_numpy`: tensor name, shape,
wire dtype tag, and the attached chunk data. -/
structure InferInput where
  name : String
  shape : List Nat
  datatype : String
  data : List Feature
deriving DecidableEq

/-- Everything `triton_client.infer` is called with: model name, inputs,
request id, requested outputs. -/
structure InferRequest where
  model_name : String
  inputs : List InferInput
  request_id : String
  outputs : List String
deriving DecidableEq

/-- The numpy shape of a chunk array: `(batch, time_frames, mel_bins)`. -/
def chunkShape (chunk : List Feature) : List Nat :=
  [chunk.length, (chunk.headD []).length, ((chunk.headD []).headD []).length]

/-- `np_to_triton_dtype(input_audio.dtype)`: the feature arrays coming out of
`prepare_feature` are float32 (`torch` default dtype, kept by `.numpy()`), whose
Triton wire tag is `"FP32"`. -/
def chunkDtype (_chunk : List Feature) : String := "FP32"

/-- The request `get_embeddings` issues for one chunk `input_audio`:
`InferInput("input", input_audio.shape, np_to_triton_dtype(input_audio.dtype))`
with the chunk data attached, `InferRequestedOutput("output")`, and
`triton_client.infer(self.model_name, inputs, request_id=str(1), outputs=outputs)`. -/
def MusicEmbeddingClient.build_request (c : MusicEmbeddingClient)
    (input_audio : List Feature) : InferRequest :=
  { model_name := c.model_name
    inputs := [{ name := "input"
                 shape := chunkShape input_audio
                 datatype := chunkDtype input_audio
                 data := input_audio }]
    request_id := toString 1
    outputs := ["output"] }

/-- The opaque Triton network: a server url and a request yield either a raised
client-side error message or a response, modelled as an association list from
tensor names to tensors (each tensor a list of embedding vectors of type `β`).
`response.as_numpy(name)` is lookup by name. -/
abbrev Net (β : Type v) := String → InferRequest → Except String (List (String × List β))

/-- Errors the `get_embeddings` pipeline can surface.  None of these is a
dedicated exception class in the source; each models a runtime error the source
raises at the given point. -/
inductive PipelineError where
  /-- torch's runtime error from `unfold` when the waveform is shorter than one
  segment (the spec's taxonomy names this failure `InsufficientAudioLength`). -/
  | shortInput (waveLen segSize : Nat)
  /-- an error raised by the gRPC client during `triton_client.infer`,
  propagated unchanged (the spec's taxonomy names this `InferenceFailure`). -/
  | rpcError (msg : String)
  /-- `response.as_numpy("output")` returned `None` for some chunk, so the final
  `np.concatenate` raises a type error. -/
  | missingOutput
  /-- `np.concatenate` on an empty list of batches raises a value error. -/
  | emptyConcat
deriving DecidableEq

/-- The per-chunk loop of `get_embeddings`: for each chunk open a connection to
`c.url`, issue one inference request, and collect `response.as_numpy("output")`
(which is `none` when the response has no tensor named `"output"`).  A raised
client error aborts the loop immediately; no retry is attempted. -/
def extract_loop {β : Type v} (net : Net β) (c : MusicEmbeddingClient) :
    List (List Feature) → Except PipelineError (List (Option (List β)))
  | [] => .ok []
  | chunk :: rest =>
      match net c.url (c.build_request chunk) with
      | .error msg => .error (.rpcError msg)
      | .ok resp =>
          match extract_loop net c rest with
          | .error e => .error e
          | .ok tail => .ok (List.lookup "output" resp :: tail)

/-- Turn a list of optional values into an optional list: `some` of all values
when every entry is present, `none` otherwise. -/
def collectSome {α : Type u} : List (Option α) → Option (List α)
  | [] => some []
  | none :: _ => none
  | some a :: rest => (collectSome rest).map (fun l => a :: l)

/-- `np.concatenate(Output_Embeddings)`: raises on an empty batch list, raises
when some batch is `None` (a missing `"output"` tensor), and otherwise
concatenates the batches in order. -/
def np_concatenate {β : Type v} (batches : List (Option (List β))) :
    Except PipelineError (List β) :=
  if batches.isEmpty then .error .emptyConcat
  else
    match collectSome batches with
    | none => .error .missingOutput
    | some bs => .ok bs.flatten

/-- `MusicEmbeddingClient.get_embeddings`: prepare features (discarding the
returned sample rate), split them into chunks of `EXTRACT_EMB_CHUNK_SIZE`, run
the per-chunk inference loop, and concatenate the collected batches. -/
def MusicEmbeddingClient.get_embeddings {β : Type v} (c : MusicEmbeddingClient)
    (mel : List (List ℚ) → List Feature) (logFn : ℚ → ℚ) (net : Net β)
    (file : AudioInput) : Except PipelineError (List β) :=
  match c.prepare_feature mel logFn file with
  | none => .error (.shortInput file.samples.length c.segment_size)
  | some (Audio, _) =>
      match extract_loop net c (split_to_equal_chunk Audio EXTRACT_EMB_CHUNK_SIZE) with
      | .error e => .error e
      | .ok batches => np_concatenate batches

section HelperLemmas

variable {α : Type u} {β : Type v}

lemma init_segment_size (url : String) :
    (MusicEmbeddingClient.init url).segment_size = 8000 := by
  show (SEGMENT_SIZE * (SAMPLE_RATE : ℚ)).floor.toNat = 8000
  norm_num [SEGMENT_SIZE, SAMPLE_RATE, Rat.floor_def']
  rfl

lemma init_hop_size (url : String) :
    (MusicEmbeddingClient.init url).hop_size = 4000 := by
  show (HOP_SIZE * (SAMPLE_RATE : ℚ)).floor.toNat = 4000
  norm_num [HOP_SIZE, SAMPLE_RATE, Rat.floor_def']
  rfl

lemma init_model_name (url : String) :
    (MusicEmbeddingClient.init url).model_name = "neuralfp" := rfl

lemma unfold_pos (xs : List α) (size step : Nat) (hstep : 0 < step)
    (hsize : size ≤ xs.length) :
    unfold xs size step =
      some ((List.range ((xs.length - size) / step + 1)).map
        (fun i => (xs.drop (i * step)).take size)) := by
  simp [unfold, hstep, hsize]

lemma unfold_short (xs : List α) (size step : Nat) (hsize : xs.length < size) :
    unfold xs size step = none := by
  simp only [unfold, ite_eq_right_iff]
  intro h
  omega

lemma range_map_getD (f : Nat → List α) (n i : Nat) (hi : i < n) :
    (((List.range n).map f).getD i []) = f i := by
  simp [List.getD_eq_getElem?_getD, List.getElem?_map, List.getElem?_range, hi]

lemma sum_map_sub_const (xs : List ℚ) (m : ℚ) :
    (xs.map (fun v => v - m)).sum = xs.sum - (xs.length : ℚ) * m := by
  induction xs with
  | nil => simp
  | cons a as ih =>
      simp only [List.map_cons, List.sum_cons, ih, List.length_cons]
      push_cast
      ring

lemma mean_removeDC (xs : List ℚ) : mean (removeDC xs) = 0 := by
  rcases eq_or_ne xs.length 0 with h | h
  · rw [List.length_eq_zero] at h
    subst h
    simp [mean, removeDC]
  · have hne : (xs.length : ℚ) ≠ 0 := by exact_mod_cast h
    simp only [mean, removeDC, sum_map_sub_const]
    rw [mul_div_cancel₀ _ hne]
    simp

lemma split_nil (C : Nat) : split_to_equal_chunk ([] : List α) C = [] := by
  simp [split_to_equal_chunk]

lemma split_cons (xs : List α) (C : Nat) (hx : xs ≠ []) (hC : 0 < C) :
    split_to_equal_chunk xs C =
      xs.take C :: split_to_equal_chunk (xs.drop C) C := by
  cases xs with
  | nil => exact absurd rfl hx
  | cons a as =>
      cases C with
      | zero => omega
      | succ n => simp [split_to_equal_chunk]

lemma split_flatten (xs : List α) (C : Nat) (hC : 0 < C) :
    (split_to_equal_chunk xs C).flatten = xs := by
  induction xs, C using split_to_equal_chunk.induct with
  | case1 C => simp [split_nil]
  | case2 a as => omega
  | case3 a as n ih =>
      rw [split_cons _ _ (List.cons_ne_nil a as) hC]
      simp only [List.flatten_cons, List.drop_succ_cons]
      rw [ih hC]
      exact List.take_append_drop _ _

lemma split_length (xs : List α) (C : Nat) (hC : 0 < C) :
    (split_to_equal_chunk xs C).length = (xs.length + C - 1) / C := by
  induction xs, C using split_to_equal_chunk.induct with
  | case1 C =>
      rw [split_nil]
      simp [Nat.div_eq_of_lt, hC]
  | case2 a as => omega
  | case3 a as n ih =>
      rw [split_cons _ _ (List.cons_ne_nil a as) hC]
      simp only [List.length_cons, List.drop_succ_cons]
      rw [ih hC]
      simp only [List.length_drop, List.length_cons]
      set L := as.length + 1 with hL
      have hL1 : 1 ≤ L := by omega
      have e2 : L + (n + 1) - 1 = (L - 1) + (n + 1) := by omega
      rcases le_or_lt L (n + 1) with h | h
      · have e1 : L - (n + 1) = 0 := by omega
        rw [show as.length - n = L - (n + 1) from by omega, e1, e2,
          Nat.add_div_right _ hC]
        rw [Nat.div_eq_of_lt (by omega), Nat.div_eq_of_lt (by omega)]
      · have e1 : L - (n + 1) + (n + 1) - 1 = (L - (n + 1) - 1) + (n + 1) := by omega
        rw [show as.length - n = L - (n + 1) from by omega, e1, e2,
          show L - 1 = (L - (n + 1) - 1) + (n + 1) from by omega,
          Nat.add_div_right _ hC, Nat.add_div_right _ hC, Nat.add_div_right _ hC]

lemma split_getD (xs : List α) (C : Nat) (hC : 0 < C) (i : Nat)
    (hi : i < (split_to_equal_chunk xs C).length) :
    (split_to_equal_chunk xs C).getD i [] = (xs.drop (i * C)).take C := by
  induction xs, C using split_to_equal_chunk.induct generalizing i with
  | case1 C => rw [split_nil] at hi; simp at hi
  | case2 a as => omega
  | case3 a as n ih =>
      rw [split_cons _ _ (List.cons_ne_nil a as) hC] at hi ⊢
      cases i with
      | zero => simp
      | succ i =>
          simp only [List.getD_cons_succ]
          simp only [List.length_cons, Nat.succ_lt_succ_iff] at hi
          rw [show ((a :: as).drop (n + 1)) = as.drop n from List.drop_succ_cons] at hi
          rw [show ((a :: as).drop (Nat.succ n)) = as.drop n from List.drop_succ_cons]
          rw [ih hC i hi, List.drop_drop,
            show (i + 1) * (n + 1) = (i * (n + 1) + n) + 1 from by ring,
            List.drop_succ_cons,
            show i * (n + 1) + n = n + i * (n + 1) from by ring]

lemma split_mem_ne_nil (xs : List α) (C : Nat) (hC : 0 < C) (ch : List α)
    (hmem : ch ∈ split_to_equal_chunk xs C) : ch ≠ [] := by
  induction xs, C using split_to_equal_chunk.induct with
  | case1 C => rw [split_nil] at hmem; simp at hmem
  | case2 a as => omega
  | case3 a as n ih =>
      rw [split_cons _ _ (List.cons_ne_nil a as) hC] at hmem
      rcases List.mem_cons.mp hmem with h | h
      · subst h
        simp
      · exact ih hC (by simpa [List.drop_succ_cons] using h)

lemma split_ne_nil (xs : List α) (C : Nat) (hx : xs ≠ []) (hC : 0 < C) :
    split_to_equal_chunk xs C ≠ [] := by
  rw [split_cons xs C hx hC]
  exact List.cons_ne_nil _ _

lemma getLastD_indep (l : List α) (hl : l ≠ []) (d1 d2 : α) :
    l.getLastD d1 = l.getLastD d2 := by
  cases l with
  | nil => exact absurd rfl hl
  | cons a as => rfl

lemma split_getLastD (xs : List α) (C : Nat) (hC : 0 < C) (hx : xs ≠ []) :
    ((split_to_equal_chunk xs C).getLastD []).length =
      if xs.length % C = 0 then C else xs.length % C := by
  induction xs, C using split_to_equal_chunk.induct with
  | case1 C => exact absurd rfl hx
  | case2 a as => omega
  | case3 a as n ih =>
      rw [split_cons _ _ (List.cons_ne_nil a as) hC]
      rcases le_or_lt (as.length + 1) (n + 1) with h | h
      · have hdrop : (a :: as).drop (n + 1) = [] := by
          apply List.eq_nil_of_length_eq_zero
          simp only [List.length_drop, List.length_cons]
          omega
        rw [hdrop, split_nil,
          show ([List.take (n + 1) (a :: as)].getLastD []) = List.take (n + 1) (a :: as)
            from rfl,
          List.length_take]
        simp only [List.length_cons]
        rcases eq_or_lt_of_le h with heq | hlt
        · rw [heq]
          simp [Nat.mod_self]
        · rw [min_eq_right (by omega), Nat.mod_eq_of_lt hlt]
          have hne : as.length + 1 ≠ 0 := by omega
          simp [hne]
      · have hdrop : (a :: as).drop (n + 1) ≠ [] := by
          apply List.ne_nil_of_length_pos
          simp only [List.length_drop, List.length_cons]
          omega
        have htail := split_ne_nil _ _ hdrop hC
        rw [List.getLastD_cons, getLastD_indep _ htail _ []]
        rw [show ((a :: as).drop (n + 1)) = as.drop n from List.drop_succ_cons] at htail hdrop ⊢
        rw [ih hC hdrop]
        have hmod : (a :: as).length % (n + 1) = (as.drop n).length % (n + 1) := by
          simp only [List.length_drop, List.length_cons]
          conv_lhs => rw [show as.length + 1 = (as.length - n) + (n + 1) from by omega]
          rw [Nat.add_mod_right]
        rw [← hmod]

lemma lookup_output (x : List β) :
    List.lookup "output" ([("output", x)] : List (String × List β)) = some x := by
  simp [List.lookup]

lemma extract_loop_all_ok (net : Net β) (c : MusicEmbeddingClient)
    (embOf : Feature → β) (chunks : List (List Feature))
    (h : ∀ ch ∈ chunks,
      net c.url (c.build_request ch) = .ok [("output", ch.map embOf)]) :
    extract_loop net c chunks = .ok (chunks.map (fun ch => some (ch.map embOf))) := by
  induction chunks with
  | nil => rfl
  | cons ch rest ih =>
      have hh := h ch (List.mem_cons_self ch rest)
      have hrest := ih (fun x hx => h x (List.mem_cons_of_mem _ hx))
      simp [extract_loop, hh, hrest, lookup_output]

lemma extract_loop_first_error (net : Net β) (c : MusicEmbeddingClient)
    (chunks : List (List Feature)) (i : Nat) (msg : String)
    (hi : i < chunks.length)
    (hfail : net c.url (c.build_request (chunks.getD i [])) = .error msg)
    (hok : ∀ j, j < i →
      ∃ r, net c.url (c.build_request (chunks.getD j [])) = Except.ok r) :
    extract_loop net c chunks = .error (.rpcError msg) := by
  induction chunks generalizing i with
  | nil => simp at hi
  | cons ch rest ih =>
      cases i with
      | zero =>
          simp only [List.getD_cons_zero] at hfail
          simp [extract_loop, hfail]
      | succ i =>
          obtain ⟨r, hr⟩ := hok 0 (Nat.succ_pos i)
          simp only [List.getD_cons_zero] at hr
          have hrec := ih i (by simpa using hi)
            (by simpa using hfail)
            (fun j hj => by simpa using hok (j + 1) (by omega))
          simp [extract_loop, hr, hrec]

lemma collectSome_map_some (l : List α) : collectSome (l.map some) = some l := by
  induction l with
  | nil => rfl
  | cons a as ih => simp [collectSome, ih]

lemma np_concatenate_map_some (l : List (List β)) (hl : l ≠ []) :
    np_concatenate (l.map some) = .ok l.flatten := by
  cases l with
  | nil => exact absurd rfl hl
  | cons x xs =>
      show np_concatenate ((x :: xs).map some) = _
      rw [np_concatenate, collectSome_map_some]
      simp

end HelperLemmas

section SharedFacts

variable {α : Type u} {β : Type v}

lemma chunk_size_pos : 0 < EXTRACT_EMB_CHUNK_SIZE := by norm_num [EXTRACT_EMB_CHUNK_SIZE]

lemma unfold_init (url : String) (samples : List ℚ) (h : 8000 ≤ samples.length) :
    unfold samples (MusicEmbeddingClient.init url).segment_size
        (MusicEmbeddingClient.init url).hop_size =
      some ((List.range ((samples.length - 8000) / 4000 + 1)).map
        (fun i => (samples.drop (i * 4000)).take 8000)) := by
  rw [init_segment_size, init_hop_size, unfold_pos _ _ _ (by omega) h]

end SharedFacts

/-- C2: for every mono waveform of length `L ≥ 8000`, the framing step inside
`prepare_feature` produces exactly `(L - 8000) / 4000 + 1` segments, the `i`-th
segment being the `8000`-sample slice starting at offset `i * 4000`, and
`prepare_feature` applies the DC removal and transform to exactly these
segments. -/
theorem C2_segment_count_and_shape (url : String) (wav : List ℚ)
    (h : 8000 ≤ wav.length) :
    ∃ segs,
      unfold wav (MusicEmbeddingClient.init url).segment_size
        (MusicEmbeddingClient.init url).hop_size = some segs ∧
      segs.length = (wav.length - 8000) / 4000 + 1 ∧
      (∀ i, i < segs.length → segs.getD i [] = (wav.drop (i * 4000)).take 8000) ∧
      (∀ i, i < segs.length → (segs.getD i []).length = 8000) ∧
      (∀ mel logFn sr,
        (MusicEmbeddingClient.init url).prepare_feature mel logFn ⟨wav, sr⟩ =
          some ((mel (segs.map removeDC)).map (applyLog logFn), sr)) := by
  refine ⟨_, unfold_init url wav h, ?_, ?_, ?_, ?_⟩
  · simp
  · intro i hi
    simp only [List.length_map, List.length_range] at hi
    rw [range_map_getD _ _ i hi]
  · intro i hi
    simp only [List.length_map, List.length_range] at hi
    rw [range_map_getD _ _ i hi, List.length_take, List.length_drop]
    have hi2 : i ≤ (wav.length - 8000) / 4000 := by omega
    have hmul : i * 4000 ≤ wav.length - 8000 :=
      le_trans (Nat.mul_le_mul_right _ hi2) (Nat.div_mul_le_self _ _)
    omega
  · intro mel logFn sr
    simp only [MusicEmbeddingClient.prepare_feature, unfold_init url wav h]

/-- Witness for C2 at a concrete 8000-sample waveform: exactly one segment. -/
theorem C2_segment_count_and_shape_witness :
    ∃ segs,
      unfold (List.replicate 8000 (0 : ℚ))
        (MusicEmbeddingClient.init "url").segment_size
        (MusicEmbeddingClient.init "url").hop_size = some segs ∧
      segs.length = 1 := by
  obtain ⟨segs, h1, h2, -, -, -⟩ :=
    C2_segment_count_and_shape "url" (List.replicate 8000 (0 : ℚ))
      (by rw [List.length_replicate])
  exact ⟨segs, h1, by rw [h2]; norm_num⟩

/-- C3: for every waveform shorter than one segment (8000 samples),
`prepare_feature` fails (torch's unfold error, the failure the spec names
`InsufficientAudioLength`), `get_embeddings` surfaces that failure, and no
output — in particular no empty embedding sequence — is produced. -/
theorem C3_short_input_failure {β : Type v} (url : String)
    (mel : List (List ℚ) → List Feature) (logFn : ℚ → ℚ) (net : Net β)
    (samples : List ℚ) (sr : Nat) (h : samples.length < 8000) :
    (MusicEmbeddingClient.init url).prepare_feature mel logFn ⟨samples, sr⟩ = none ∧
    (MusicEmbeddingClient.init url).get_embeddings mel logFn net ⟨samples, sr⟩ =
      .error (.shortInput samples.length 8000) ∧
    ∀ out, (MusicEmbeddingClient.init url).get_embeddings mel logFn net
      ⟨samples, sr⟩ ≠ Except.ok out := by
  have hu : unfold samples (MusicEmbeddingClient.init url).segment_size
      (MusicEmbeddingClient.init url).hop_size = none := by
    rw [init_segment_size]
    exact unfold_short _ _ _ h
  have hp : (MusicEmbeddingClient.init url).prepare_feature mel logFn
      ⟨samples, sr⟩ = none := by
    simp [MusicEmbeddingClient.prepare_feature, hu]
  have hg : (MusicEmbeddingClient.init url).get_embeddings mel logFn net
      ⟨samples, sr⟩ = .error (.shortInput samples.length 8000) := by
    simp [MusicEmbeddingClient.get_embeddings, hp, init_segment_size]
  refine ⟨hp, hg, fun out => ?_⟩
  rw [hg]
  simp

/-- Witness for C3 at a concrete 10-sample waveform. -/
theorem C3_short_input_failure_witness :
    (MusicEmbeddingClient.init "url").prepare_feature (fun _ => []) (fun v => v)
      ⟨List.replicate 10 (0 : ℚ), 8000⟩ = none ∧
    (MusicEmbeddingClient.init "url").get_embeddings (fun _ => []) (fun v => v)
      (fun _ _ => Except.ok ([] : List (String × List Unit)))
      ⟨List.replicate 10 (0 : ℚ), 8000⟩ =
      Except.error (.shortInput (List.replicate 10 (0 : ℚ)).length 8000) := by
  have h := C3_short_input_failure "url" (fun _ => []) (fun v => v)
    (fun _ _ => Except.ok ([] : List (String × List Unit)))
    (List.replicate 10 (0 : ℚ)) 8000 (by rw [List.length_replicate]; norm_num)
  exact ⟨h.1, h.2.1⟩

/-- C4: the chunker produces exactly `ceil(N / 1024)` chunks, chunk `i` being
the elements `[i*1024, min((i+1)*1024, N))` in original order; no chunk is
empty, an empty input yields zero chunks, concatenating all chunks reproduces
the input exactly, and the last chunk has `N mod 1024` elements (or `1024` when
`N mod 1024 = 0` and `N > 0`). -/
theorem C4_chunker_round_trip {α : Type u} (xs : List α) :
    (split_to_equal_chunk xs EXTRACT_EMB_CHUNK_SIZE).length =
      (xs.length + EXTRACT_EMB_CHUNK_SIZE - 1) / EXTRACT_EMB_CHUNK_SIZE ∧
    (∀ i, i < (split_to_equal_chunk xs EXTRACT_EMB_CHUNK_SIZE).length →
      (split_to_equal_chunk xs EXTRACT_EMB_CHUNK_SIZE).getD i [] =
        (xs.drop (i * EXTRACT_EMB_CHUNK_SIZE)).take EXTRACT_EMB_CHUNK_SIZE) ∧
    (∀ ch ∈ split_to_equal_chunk xs EXTRACT_EMB_CHUNK_SIZE, ch ≠ []) ∧
    (xs = [] → split_to_equal_chunk xs EXTRACT_EMB_CHUNK_SIZE = []) ∧
    (split_to_equal_chunk xs EXTRACT_EMB_CHUNK_SIZE).flatten = xs ∧
    (xs ≠ [] →
      ((split_to_equal_chunk xs EXTRACT_EMB_CHUNK_SIZE).getLastD []).length =
        if xs.length % EXTRACT_EMB_CHUNK_SIZE = 0 then EXTRACT_EMB_CHUNK_SIZE
        else xs.length % EXTRACT_EMB_CHUNK_SIZE) := by
  refine ⟨split_length xs _ chunk_size_pos,
    fun i hi => split_getD xs _ chunk_size_pos i hi,
    fun ch hch => split_mem_ne_nil xs _ chunk_size_pos ch hch,
    fun hx => by rw [hx, split_nil],
    split_flatten xs _ chunk_size_pos,
    fun hx => split_getLastD xs _ chunk_size_pos hx⟩

/-- Witness for C4 at the concrete input `[0, 1, 2]`: one chunk, round trip,
last chunk of size `3 = 3 mod 1024`. -/
theorem C4_chunker_round_trip_witness :
    (split_to_equal_chunk ([0, 1, 2] : List ℕ) EXTRACT_EMB_CHUNK_SIZE).length = 1 ∧
    (split_to_equal_chunk ([0, 1, 2] : List ℕ) EXTRACT_EMB_CHUNK_SIZE).flatten =
      [0, 1, 2] ∧
    (split_to_equal_chunk ([0, 1, 2] : List ℕ) EXTRACT_EMB_CHUNK_SIZE).getD 0 [] =
      (([0, 1, 2] : List ℕ).drop (0 * EXTRACT_EMB_CHUNK_SIZE)).take
        EXTRACT_EMB_CHUNK_SIZE ∧
    ((split_to_equal_chunk ([0, 1, 2] : List ℕ) EXTRACT_EMB_CHUNK_SIZE).getLastD
      []).length = 3 := by
  have h := C4_chunker_round_trip ([0, 1, 2] : List ℕ)
  refine ⟨?_, h.2.2.2.2.1, ?_, ?_⟩
  · rw [h.1]
    norm_num [EXTRACT_EMB_CHUNK_SIZE]
  · refine h.2.1 0 ?_
    rw [h.1]
    norm_num [EXTRACT_EMB_CHUNK_SIZE]
  · rw [h.2.2.2.2.2 (by simp)]
    norm_num [EXTRACT_EMB_CHUNK_SIZE]

/-- C6: every framed segment has its own mean subtracted (DC removal is
`s.map (fun v => v - mean s)`, per segment, not a global waveform mean), and in
exact arithmetic the mean of every DC-removed segment is `0`. -/
theorem C6_per_segment_dc_removal (url : String) (wav : List ℚ)
    (segs : List (List ℚ))
    (_hs : unfold wav (MusicEmbeddingClient.init url).segment_size
      (MusicEmbeddingClient.init url).hop_size = some segs)
    (s : List ℚ) (_hmem : s ∈ segs) :
    removeDC s = s.map (fun v => v - mean s) ∧ mean (removeDC s) = 0 :=
  ⟨rfl, mean_removeDC s⟩

/-- Witness for C6 at a concrete constant waveform. -/
theorem C6_per_segment_dc_removal_witness :
    ∃ segs s,
      unfold (List.replicate 8000 (1 : ℚ))
        (MusicEmbeddingClient.init "url").segment_size
        (MusicEmbeddingClient.init "url").hop_size = some segs ∧
      s ∈ segs ∧ mean (removeDC s) = 0 := by
  have h1 := unfold_init "url" (List.replicate 8000 (1 : ℚ))
    (by rw [List.length_replicate])
  have hmem : ((List.replicate 8000 (1 : ℚ)).drop (0 * 4000)).take 8000 ∈
      (List.range (((List.replicate 8000 (1 : ℚ)).length - 8000) / 4000 + 1)).map
        (fun i => ((List.replicate 8000 (1 : ℚ)).drop (i * 4000)).take 8000) := by
    refine List.mem_map.mpr ⟨0, ?_, rfl⟩
    rw [List.length_replicate]
    norm_num [List.mem_range]
  exact ⟨_, _, h1, hmem,
    (C6_per_segment_dc_removal "url" _ _ h1 _ hmem).2⟩

/-- C5: whenever `prepare_feature` succeeds, every value of every returned
feature tensor is at least `log(1e-5)` (for the monotone external logarithm),
because every value is clamped below at `1e-5` before the logarithm is taken;
in exact arithmetic no value can lie below that bound. -/
theorem C5_finite_features (url : String) (mel : List (List ℚ) → List Feature)
    (logFn : ℚ → ℚ) (hlog : Monotone logFn) (file : AudioInput)
    (features : List Feature) (sr : Nat)
    (hp : (MusicEmbeddingClient.init url).prepare_feature mel logFn file =
      some (features, sr)) :
    ∀ f ∈ features, ∀ row ∈ f, ∀ v ∈ row, logFn (1 / 100000) ≤ v := by
  cases hu : unfold file.samples (MusicEmbeddingClient.init url).segment_size
      (MusicEmbeddingClient.init url).hop_size with
  | none =>
      simp only [MusicEmbeddingClient.prepare_feature, hu] at hp
      exact Option.noConfusion hp
  | some segs =>
      simp only [MusicEmbeddingClient.prepare_feature, hu, Option.some.injEq,
        Prod.mk.injEq] at hp
      intro f hf row hrow v hv
      rw [← hp.1] at hf
      obtain ⟨g, -, hg⟩ := List.mem_map.mp hf
      rw [← hg] at hrow
      obtain ⟨r0, -, hr0⟩ := List.mem_map.mp hrow
      rw [← hr0] at hv
      obtain ⟨x, -, hx⟩ := List.mem_map.mp hv
      rw [← hx]
      exact hlog (le_max_right x (1 / 100000))

/-- Witness for C5 with the identity as logarithm and a one-value mock
transform: the single produced value is at least the clamp floor. -/
theorem C5_finite_features_witness : (1 : ℚ) / 100000 ≤ clamp_min 0 := by
  have hp : (MusicEmbeddingClient.init "url").prepare_feature
      (fun _ => [[[(0 : ℚ)]]]) id ⟨List.replicate 8000 (0 : ℚ), 8000⟩ =
      some ([applyLog id [[(0 : ℚ)]]], 8000) := by
    simp only [MusicEmbeddingClient.prepare_feature,
      unfold_init "url" (List.replicate 8000 (0 : ℚ)) (by rw [List.length_replicate]),
      List.map_cons, List.map_nil]
  exact C5_finite_features "url" (fun _ => [[[(0 : ℚ)]]]) id monotone_id
    ⟨List.replicate 8000 (0 : ℚ), 8000⟩ [applyLog id [[(0 : ℚ)]]] 8000 hp
    (applyLog id [[(0 : ℚ)]]) (by simp)
    (List.map (fun v => id (clamp_min v)) [(0 : ℚ)]) (by simp [applyLog])
    (clamp_min 0) (by simp)

/-- C8: every request issued for a chunk uses model name `"neuralfp"`, exactly
one input tensor named `"input"` carrying the chunk's shape, dtype and data,
exactly one requested output named `"output"`, and the constant request
identifier `"1"`; the batch collected for the chunk is read from the response
tensor named `"output"`. -/
theorem C8_wire_contract {β : Type v} (url : String) (chunk : List Feature)
    (resp : List (String × List β)) :
    ((MusicEmbeddingClient.init url).build_request chunk).model_name =
      "neuralfp" ∧
    ((MusicEmbeddingClient.init url).build_request chunk).inputs =
      [{ name := "input", shape := chunkShape chunk,
         datatype := chunkDtype chunk, data := chunk }] ∧
    ((MusicEmbeddingClient.init url).build_request chunk).request_id = "1" ∧
    ((MusicEmbeddingClient.init url).build_request chunk).outputs = ["output"] ∧
    extract_loop (fun _ _ => Except.ok resp) (MusicEmbeddingClient.init url)
      [chunk] = .ok [List.lookup "output" resp] := by
  refine ⟨rfl, rfl, rfl, rfl, ?_⟩
  simp [extract_loop]

/-- C9: the pipeline neither validates nor uses the reported sample rate:
`prepare_feature` only threads it through unchanged, `get_embeddings` discards
it, and two decoded inputs with identical samples but different reported rates
produce identical features and identical embeddings. -/
theorem C9_sample_rate_noninterference {β : Type v} (url : String)
    (mel : List (List ℚ) → List Feature) (logFn : ℚ → ℚ) (net : Net β)
    (samples : List ℚ) (sr1 sr2 : Nat) :
    (MusicEmbeddingClient.init url).get_embeddings mel logFn net
        ⟨samples, sr1⟩ =
      (MusicEmbeddingClient.init url).get_embeddings mel logFn net
        ⟨samples, sr2⟩ ∧
    Option.map Prod.fst
        ((MusicEmbeddingClient.init url).prepare_feature mel logFn
          ⟨samples, sr1⟩) =
      Option.map Prod.fst
        ((MusicEmbeddingClient.init url).prepare_feature mel logFn
          ⟨samples, sr2⟩) ∧
    Option.map Prod.snd
        ((MusicEmbeddingClient.init url).prepare_feature mel logFn
          ⟨samples, sr1⟩) =
      Option.map (fun _ => sr1)
        ((MusicEmbeddingClient.init url).prepare_feature mel logFn
          ⟨samples, sr1⟩) := by
  cases hu : unfold samples (MusicEmbeddingClient.init url).segment_size
      (MusicEmbeddingClient.init url).hop_size with
  | none =>
      refine ⟨?_, ?_, ?_⟩ <;>
        simp [MusicEmbeddingClient.get_embeddings,
          MusicEmbeddingClient.prepare_feature, hu]
  | some segs =>
      refine ⟨?_, ?_, ?_⟩ <;>
        simp [MusicEmbeddingClient.get_embeddings,
          MusicEmbeddingClient.prepare_feature, hu]

/-- C10: the pipeline is deterministic: with the same decoded waveform and a
server giving the same responses, two runs return identical features and
identical embedding sequences (the embedding is a pure function; the source
consults no randomness and mutates no state across runs). -/
theorem C10_two_run_determinism {β : Type v} (url : String)
    (mel : List (List ℚ) → List Feature) (logFn : ℚ → ℚ)
    (net1 net2 : Net β) (file : AudioInput)
    (hnet : ∀ u req, net1 u req = net2 u req) :
    (MusicEmbeddingClient.init url).prepare_feature mel logFn file =
      (MusicEmbeddingClient.init url).prepare_feature mel logFn file ∧
    (MusicEmbeddingClient.init url).get_embeddings mel logFn net1 file =
      (MusicEmbeddingClient.init url).get_embeddings mel logFn net2 file := by
  have hfun : net1 = net2 := funext fun u => funext fun req => hnet u req
  subst hfun
  exact ⟨rfl, rfl⟩

/-- Witness for C10 with a concrete file and a concrete (failing) server. -/
theorem C10_two_run_determinism_witness :
    (MusicEmbeddingClient.init "url").get_embeddings (fun _ => []) (fun v => v)
        (fun _ _ => Except.error "down" : Net Unit) ⟨[], 0⟩ =
      (MusicEmbeddingClient.init "url").get_embeddings (fun _ => []) (fun v => v)
        (fun _ _ => Except.error "down" : Net Unit) ⟨[], 0⟩ :=
  (C10_two_run_determinism "url" (fun _ => []) (fun v => v)
    (fun _ _ => Except.error "down" : Net Unit)
    (fun _ _ => Except.error "down" : Net Unit) ⟨[], 0⟩ (fun _ _ => rfl)).2

lemma get_embeddings_ok {β : Type v} (url : String)
    (mel : List (List ℚ) → List Feature) (logFn : ℚ → ℚ) (net : Net β)
    (file : AudioInput) (F : List Feature) (sr : Nat) (embOf : Feature → β)
    (hp : (MusicEmbeddingClient.init url).prepare_feature mel logFn file =
      some (F, sr))
    (hF : F ≠ [])
    (hnet : ∀ chunk, net url ((MusicEmbeddingClient.init url).build_request
      chunk) = .ok [("output", chunk.map embOf)]) :
    (MusicEmbeddingClient.init url).get_embeddings mel logFn net file =
      .ok (F.map embOf) := by
  have hchne := split_ne_nil F EXTRACT_EMB_CHUNK_SIZE hF chunk_size_pos
  have hloop := extract_loop_all_ok net (MusicEmbeddingClient.init url) embOf
    (split_to_equal_chunk F EXTRACT_EMB_CHUNK_SIZE) (fun ch _ => hnet ch)
  simp only [MusicEmbeddingClient.get_embeddings, hp, hloop]
  rw [show (split_to_equal_chunk F EXTRACT_EMB_CHUNK_SIZE).map
        (fun ch => some (ch.map embOf)) =
      ((split_to_equal_chunk F EXTRACT_EMB_CHUNK_SIZE).map
        (fun ch => ch.map embOf)).map some from by simp [List.map_map]]
  rw [np_concatenate_map_some _ (by simpa using hchne)]
  rw [← List.map_flatten, split_flatten _ _ chunk_size_pos]

/-- C1: end-to-end count and order invariant: for a decoded waveform long
enough to frame, with the external transform applied per segment and a server
that answers every request with exactly one embedding per input feature tensor
in the same order, `get_embeddings` returns one embedding per segment, the
`i`-th output being the server's embedding of the `i`-th segment; no stage
reorders elements. -/
theorem C1_end_to_end_order {β : Type v} (url : String)
    (melOne : List ℚ → Feature) (mel : List (List ℚ) → List Feature)
    (logFn : ℚ → ℚ) (embOf : Feature → β) (net : Net β)
    (samples : List ℚ) (sr : Nat)
    (hlen : 8000 ≤ samples.length)
    (hmel : ∀ b, mel b = b.map melOne)
    (hnet : ∀ chunk, net url ((MusicEmbeddingClient.init url).build_request
      chunk) = .ok [("output", chunk.map embOf)]) :
    ∃ segs,
      unfold samples (MusicEmbeddingClient.init url).segment_size
          (MusicEmbeddingClient.init url).hop_size = some segs ∧
      segs.length = (samples.length - 8000) / 4000 + 1 ∧
      (MusicEmbeddingClient.init url).get_embeddings mel logFn net
          ⟨samples, sr⟩ =
        .ok (segs.map (fun s => embOf (applyLog logFn (melOne (removeDC s))))) := by
  have hu := unfold_init url samples hlen
  have hp : (MusicEmbeddingClient.init url).prepare_feature mel logFn
      ⟨samples, sr⟩ =
      some (((List.range ((samples.length - 8000) / 4000 + 1)).map
          (fun i => (samples.drop (i * 4000)).take 8000)).map
            (fun s => applyLog logFn (melOne (removeDC s))), sr) := by
    simp only [MusicEmbeddingClient.prepare_feature, hu]
    rw [hmel]
    simp [List.map_map, Function.comp]
  have hFne : ((List.range ((samples.length - 8000) / 4000 + 1)).map
      (fun i => (samples.drop (i * 4000)).take 8000)).map
        (fun s => applyLog logFn (melOne (removeDC s))) ≠ [] := by
    apply List.ne_nil_of_length_pos
    simp
  have hge := get_embeddings_ok url mel logFn net ⟨samples, sr⟩ _ sr embOf hp
    hFne hnet
  refine ⟨_, hu, by simp, ?_⟩
  rw [hge, List.map_map]
  simp [Function.comp]

lemma init_url (url : String) : (MusicEmbeddingClient.init url).url = url := rfl

/-- Witness for C1 at a concrete one-segment waveform with a mock transform and
a mock server that echoes one embedding (`37`) per input tensor. -/
theorem C1_end_to_end_order_witness :
    ∃ segs,
      unfold (List.replicate 8000 (0 : ℚ))
          (MusicEmbeddingClient.init "url").segment_size
          (MusicEmbeddingClient.init "url").hop_size = some segs ∧
      segs.length = ((List.replicate 8000 (0 : ℚ)).length - 8000) / 4000 + 1 ∧
      (MusicEmbeddingClient.init "url").get_embeddings
          (fun b => b.map (fun _ => [[(0 : ℚ)]])) id
          (fun _ req => Except.ok [("output",
            (req.inputs.headD
              { name := "", shape := [], datatype := "", data := [] }).data.map
                (fun _ => (37 : ℕ)))])
          ⟨List.replicate 8000 (0 : ℚ), 8000⟩ =
        .ok (segs.map (fun _ => (37 : ℕ))) :=
  C1_end_to_end_order "url" (fun _ => [[(0 : ℚ)]]) _ id (fun _ => (37 : ℕ)) _
    (List.replicate 8000 (0 : ℚ)) 8000 (by rw [List.length_replicate])
    (fun _ => rfl) (fun _ => rfl)

/-- C7 (amended): if the RPC call for the first failing chunk raises an error
while all earlier chunks succeed, `get_embeddings` fails immediately with the
underlying error message, attempts no retry, and returns no partial output.
(The propagated error is the client exception itself; it does not carry the
failing chunk's index.) -/
theorem C7_failure_propagation {β : Type v} (url : String)
    (mel : List (List ℚ) → List Feature) (logFn : ℚ → ℚ) (net : Net β)
    (file : AudioInput) (A : List Feature) (srA : Nat)
    (hp : (MusicEmbeddingClient.init url).prepare_feature mel logFn file =
      some (A, srA))
    (i : Nat) (msg : String)
    (hi : i < (split_to_equal_chunk A EXTRACT_EMB_CHUNK_SIZE).length)
    (hfail : net url ((MusicEmbeddingClient.init url).build_request
      ((split_to_equal_chunk A EXTRACT_EMB_CHUNK_SIZE).getD i [])) =
        .error msg)
    (hok : ∀ j, j < i →
      ∃ r, net url ((MusicEmbeddingClient.init url).build_request
        ((split_to_equal_chunk A EXTRACT_EMB_CHUNK_SIZE).getD j [])) =
          Except.ok r) :
    (MusicEmbeddingClient.init url).get_embeddings mel logFn net file =
      .error (.rpcError msg) ∧
    ∀ out, (MusicEmbeddingClient.init url).get_embeddings mel logFn net file ≠
      Except.ok out := by
  have hloop := extract_loop_first_error net (MusicEmbeddingClient.init url)
    (split_to_equal_chunk A EXTRACT_EMB_CHUNK_SIZE) i msg hi hfail hok
  have hg : (MusicEmbeddingClient.init url).get_embeddings mel logFn net file =
      .error (.rpcError msg) := by
    simp only [MusicEmbeddingClient.get_embeddings, hp, hloop]
  refine ⟨hg, fun out => ?_⟩
  rw [hg]
  simp

/-- Witness for C7 with a mock transform and a server that fails on the very
first chunk. -/
theorem C7_failure_propagation_witness :
    (MusicEmbeddingClient.init "url").get_embeddings (fun _ => [[[(0 : ℚ)]]]) id
        (fun _ _ => Except.error "boom" : Net ℕ)
        ⟨List.replicate 8000 (0 : ℚ), 8000⟩ =
      Except.error (.rpcError "boom") := by
  have hp : (MusicEmbeddingClient.init "url").prepare_feature
      (fun _ => [[[(0 : ℚ)]]]) id ⟨List.replicate 8000 (0 : ℚ), 8000⟩ =
      some ([applyLog id [[(0 : ℚ)]]], 8000) := by
    simp only [MusicEmbeddingClient.prepare_feature,
      unfold_init "url" (List.replicate 8000 (0 : ℚ)) (by rw [List.length_replicate]),
      List.map_cons, List.map_nil]
  exact (C7_failure_propagation "url" (fun _ => [[[(0 : ℚ)]]]) id
    (fun _ _ => Except.error "boom" : Net ℕ) ⟨List.replicate 8000 (0 : ℚ), 8000⟩
    [applyLog id [[(0 : ℚ)]]] 8000 hp 0 "boom"
    (by rw [split_length _ _ chunk_size_pos]; norm_num [EXTRACT_EMB_CHUNK_SIZE])
    rfl (fun j hj => absurd hj (Nat.not_lt_zero j))).1

/-- Mock server that raises `"boom"` on every request; in a run it makes the
very first chunk (index 0) fail. -/
def netFailFirst : Net ℚ := fun _ _ => .error "boom"

/-- Mock server that answers any request whose chunk holds exactly
`EXTRACT_EMB_CHUNK_SIZE` feature tensors and raises `"boom"` on any other
request; in a run over two chunks it makes the second chunk (index 1) fail. -/
def netFailSecond : Net ℚ := fun _ req =>
  if ((req.inputs.headD
      { name := "", shape := [], datatype := "", data := [] }).data).length =
      EXTRACT_EMB_CHUNK_SIZE then
    .ok [("output", [0])]
  else
    .error "boom"

/-- Mock transform returning 1025 feature tensors, so that the chunker
produces two chunks (1024 tensors and 1 tensor). -/
def melWide : List (List ℚ) → List Feature := fun _ => List.replicate 1025 [[0]]

/-- Counterexample to C7 as stated: the source wraps nothing — a failing RPC
call propagates the raw client error, which carries no chunk index.  A run in
which chunk 0 fails (`netFailFirst`) and a run in which chunk 0 succeeds and
chunk 1 fails (`netFailSecond`) produce the identical error value, so the
result of `get_embeddings` cannot carry the index of the failing chunk. -/
theorem C7_counterexample :
    (MusicEmbeddingClient.init "url").get_embeddings melWide id netFailFirst
        ⟨List.replicate 8000 (0 : ℚ), 8000⟩ =
      Except.error (.rpcError "boom") ∧
    (MusicEmbeddingClient.init "url").get_embeddings melWide id netFailSecond
        ⟨List.replicate 8000 (0 : ℚ), 8000⟩ =
      Except.error (.rpcError "boom") ∧
    netFailFirst "url" ((MusicEmbeddingClient.init "url").build_request
      (List.replicate 1024 (applyLog id [[(0 : ℚ)]]))) = Except.error "boom" ∧
    netFailSecond "url" ((MusicEmbeddingClient.init "url").build_request
      (List.replicate 1024 (applyLog id [[(0 : ℚ)]]))) =
      Except.ok [("output", [0])] ∧
    netFailSecond "url" ((MusicEmbeddingClient.init "url").build_request
      [applyLog id [[(0 : ℚ)]]]) = Except.error "boom" := by
  have hp : (MusicEmbeddingClient.init "url").prepare_feature melWide id
      ⟨List.replicate 8000 (0 : ℚ), 8000⟩ =
      some (List.replicate 1025 (applyLog id [[(0 : ℚ)]]), 8000) := by
    simp only [MusicEmbeddingClient.prepare_feature,
      unfold_init "url" (List.replicate 8000 (0 : ℚ)) (by rw [List.length_replicate]),
      melWide, List.map_replicate]
  have hsplit : split_to_equal_chunk
      (List.replicate 1025 (applyLog id [[(0 : ℚ)]])) EXTRACT_EMB_CHUNK_SIZE =
      [List.replicate 1024 (applyLog id [[(0 : ℚ)]]), [applyLog id [[(0 : ℚ)]]]] := by
    show split_to_equal_chunk (List.replicate 1025 (applyLog id [[(0 : ℚ)]])) 1024 = _
    rw [split_cons _ _
      (by apply List.ne_nil_of_length_pos; rw [List.length_replicate]; norm_num)
      (by norm_num)]
    rw [List.take_replicate, List.drop_replicate,
      show min 1024 1025 = 1024 from by norm_num,
      show 1025 - 1024 = 1 from by norm_num]
    rw [split_cons _ _
      (by rw [List.replicate_one]; exact List.cons_ne_nil _ _) (by norm_num)]
    rw [List.take_replicate, List.drop_replicate,
      show min 1024 1 = 1 from by norm_num,
      show 1 - 1024 = 0 from by norm_num,
      List.replicate_one, List.replicate_zero, split_nil]
  have hc0 : netFailSecond (MusicEmbeddingClient.init "url").url
      ((MusicEmbeddingClient.init "url").build_request
        (List.replicate 1024 (applyLog id [[(0 : ℚ)]]))) =
      Except.ok [("output", [0])] := by
    show (if (List.replicate 1024 (applyLog id [[(0 : ℚ)]])).length =
        EXTRACT_EMB_CHUNK_SIZE then
        (Except.ok [("output", [0])] : Except String (List (String × List ℚ)))
      else .error "boom") = Except.ok [("output", [0])]
    rw [if_pos (show (List.replicate 1024 (applyLog id [[(0 : ℚ)]])).length =
      EXTRACT_EMB_CHUNK_SIZE from by rw [List.length_replicate]; rfl)]
  have hc1 : netFailSecond (MusicEmbeddingClient.init "url").url
      ((MusicEmbeddingClient.init "url").build_request
        [applyLog id [[(0 : ℚ)]]]) = Except.error "boom" := by
    show (if ([applyLog id [[(0 : ℚ)]]].length = EXTRACT_EMB_CHUNK_SIZE) then
        (Except.ok [("output", [0])] : Except String (List (String × List ℚ)))
      else .error "boom") = Except.error "boom"
    rw [if_neg (by simp [EXTRACT_EMB_CHUNK_SIZE])]
  have hloop1 : extract_loop netFailFirst (MusicEmbeddingClient.init "url")
      [List.replicate 1024 (applyLog id [[(0 : ℚ)]]), [applyLog id [[(0 : ℚ)]]]] =
      .error (.rpcError "boom") := by
    simp only [extract_loop, netFailFirst]
  have hloop2 : extract_loop netFailSecond (MusicEmbeddingClient.init "url")
      [List.replicate 1024 (applyLog id [[(0 : ℚ)]]), [applyLog id [[(0 : ℚ)]]]] =
      .error (.rpcError "boom") := by
    simp only [extract_loop, hc0, hc1]
  refine ⟨?_, ?_, rfl, hc0, hc1⟩
  · simp only [MusicEmbeddingClient.get_embeddings, hp, hsplit, hloop1]
  · simp only [MusicEmbeddingClient.get_embeddings, hp, hsplit, hloop2]
